import Mathlib

/-!
Verification of the p424 exact-cover-with-colors (XCC / dancing links) solver.

The Rust source (`src/dlx.rs`, `src/kakuro.rs`, `src/sudoku.rs`,
`src/parenthesis_split.rs`) is shallowly embedded below.  Vectors become
`List`s indexed by `Nat`; the unchecked accessors of the source (which are
`debug_assert`-guarded and return garbage / abort out of range) are modelled
with `getD` against a default node; `panic!`/`unreachable!` branches of
infallible functions are modelled as returning the state unchanged, and the
fallible construction path is modelled with `Except`.  `usize` counters are
modelled as `Nat` with explicit wrap-around modulo `2 ^ 64` where the source
could underflow in release builds, and `u32` quantities as `Nat` with
explicit modulo `2 ^ 32` where the source uses `wrapping_sub`.  Loops whose
termination depends on the pointer structure take explicit fuel, always
chosen larger than the number of arena slots so that well-formed runs are
unaffected.
-/

set_option maxRecDepth 2000

namespace P424

/-- `usize` modulus: sizes are mutated with `+= 1` / `-= 1` on `usize`. -/
def W64 : Nat := 2 ^ 64

/-- `u32` modulus, for `u32::wrapping_sub`. -/
def W32 : Nat := 2 ^ 32

/-- `HeaderType` from dlx.rs. -/
inductive HeaderType where
  | primary
  | secondary
deriving DecidableEq

/-- `ListNodeI<usize>` (and, with the same carrier, `ListNodeI<u32>`). -/
structure ListNodeI where
  prev : Nat
  next : Nat
deriving DecidableEq

/-- `Header<I>` from dlx.rs. -/
structure Header (I : Type) where
  item : Option I
  node : ListNodeI
  headerType : HeaderType
deriving DecidableEq

/-- `NodeType` from dlx.rs. -/
inductive NodeType where
  | header (size : Nat)
  | body (color : Option Nat) (top : Nat)
deriving DecidableEq

/-- `Node<N>` from dlx.rs. -/
inductive DNode (N : Type) where
  | boundary (name : Option N) (firstForPrev lastForNext : Nat)
  | normal (itemNode : ListNodeI) (nodeType : NodeType)
deriving DecidableEq

/-- `Dlx<I, N>` from dlx.rs. -/
structure Dlx (I N : Type) where
  numPrimaryItems : Nat
  headers : List (Header I)
  body : List (DNode N)
deriving DecidableEq

namespace DNode

variable {N : Type}

/-- `Node::prev()`; calling it on a `Boundary` is a panic in the source,
modelled as `0`. -/
def prevF : DNode N → Nat
  | .normal n _ => n.prev
  | .boundary _ _ _ => 0

/-- `Node::next()`; panic on `Boundary` modelled as `0`. -/
def nextF : DNode N → Nat
  | .normal n _ => n.next
  | .boundary _ _ _ => 0

/-- The `top` field of a body node; panic otherwise, modelled as `0`. -/
def topF : DNode N → Nat
  | .normal _ (.body _ t) => t
  | _ => 0

/-- `Node::color()`; panic on non-body nodes modelled as `none`. -/
def colorF : DNode N → Option Nat
  | .normal _ (.body c _) => c
  | _ => none

/-- `Node::len()`; panic on non-header nodes modelled as `0`. -/
def sizeF : DNode N → Nat
  | .normal _ (.header s) => s
  | _ => 0

/-- Is this slot an option (body) node? -/
def isBodyN : DNode N → Bool
  | .normal _ (.body _ _) => true
  | _ => false

/-- Is this slot a column head (header-typed normal node)? -/
def isHeaderN : DNode N → Bool
  | .normal _ (.header _) => true
  | _ => false

/-- Is this slot a boundary? -/
def isBoundaryN : DNode N → Bool
  | .boundary _ _ _ => true
  | _ => false

/-- `Node::set_prev`; panic on `Boundary` modelled as the identity. -/
def setPrevF (v : Nat) : DNode N → DNode N
  | .normal n t => .normal { n with prev := v } t
  | b => b

/-- `Node::set_next`; panic on `Boundary` modelled as the identity. -/
def setNextF (v : Nat) : DNode N → DNode N
  | .normal n t => .normal { n with next := v } t
  | b => b

/-- `*len_mut() -= 1` on a column head (`usize` wrap-around on underflow);
panic on non-header nodes modelled as the identity. -/
def decSizeF : DNode N → DNode N
  | .normal n (.header s) => .normal n (.header ((s + (W64 - 1)) % W64))
  | b => b

/-- `*len_mut() += 1` on a column head (`usize` wrap-around);
panic on non-header nodes modelled as the identity. -/
def incSizeF : DNode N → DNode N
  | .normal n (.header s) => .normal n (.header ((s + 1) % W64))
  | b => b

/-- `*color_mut() = None`; panic on non-body nodes modelled as the identity. -/
def clearColorF : DNode N → DNode N
  | .normal n (.body _ t) => .normal n (.body none t)
  | b => b

/-- `*color_mut() = Some c`; panic on non-body nodes modelled as the identity. -/
def setColorF (c : Nat) : DNode N → DNode N
  | .normal n (.body _ t) => .normal n (.body (some c) t)
  | b => b

end DNode

/-- `Header::is_primary`. -/
def Header.isPrimary {I : Type} (h : Header I) : Bool :=
  match h.headerType with
  | .primary => true
  | .secondary => false

namespace Dlx

variable {I N : Type}

/-- Read a body slot (out-of-range access is UB in the source; a default
boundary is returned here, and it is never relied upon under the
well-formedness hypotheses). -/
def bget (s : Dlx I N) (i : Nat) : DNode N := s.body.getD i (.boundary none 0 0)

/-- Read a header slot. -/
def hget (s : Dlx I N) (i : Nat) : Header I :=
  s.headers.getD i ⟨none, ⟨0, 0⟩, .primary⟩

/-- Update a body slot in place. -/
def bset (s : Dlx I N) (i : Nat) (f : DNode N → DNode N) : Dlx I N :=
  { s with body := s.body.set i (f (s.bget i)) }

/-- `self.node_mut(i).set_next(v)`. -/
def setNextAt (s : Dlx I N) (i v : Nat) : Dlx I N := s.bset i (DNode.setNextF v)

/-- `self.node_mut(i).set_prev(v)`. -/
def setPrevAt (s : Dlx I N) (i v : Nat) : Dlx I N := s.bset i (DNode.setPrevF v)

/-- `*self.body_header_mut(i).len_mut() -= 1`. -/
def decSizeAt (s : Dlx I N) (i : Nat) : Dlx I N := s.bset i DNode.decSizeF

/-- `*self.body_header_mut(i).len_mut() += 1`. -/
def incSizeAt (s : Dlx I N) (i : Nat) : Dlx I N := s.bset i DNode.incSizeF

/-- `*self.body_node_mut(i).color_mut() = None`. -/
def clearColorAt (s : Dlx I N) (i : Nat) : Dlx I N := s.bset i DNode.clearColorF

/-- `*self.body_node_mut(i).color_mut() = Some c`. -/
def setColorAt (s : Dlx I N) (i c : Nat) : Dlx I N := s.bset i (DNode.setColorF c)

/-- Update a header slot's horizontal `next`. -/
def hsetNextAt (s : Dlx I N) (i v : Nat) : Dlx I N :=
  let h := s.hget i
  { s with headers := s.headers.set i { h with node := { h.node with next := v } } }

/-- Update a header slot's horizontal `prev`. -/
def hsetPrevAt (s : Dlx I N) (i v : Nat) : Dlx I N :=
  let h := s.hget i
  { s with headers := s.headers.set i { h with node := { h.node with prev := v } } }

/-- The vertical unlink performed on each option node visited by
`Dlx::hide` (read `prev`/`next`/`top` from the node, splice it out of its
column and decrement the column size). -/
def unlinkStep (s : Dlx I N) (q : Nat) : Dlx I N :=
  let pr := (s.bget q).prevF
  let nx := (s.bget q).nextF
  let tp := (s.bget q).topF
  (((s.setNextAt pr nx).setPrevAt nx pr).decSizeAt tp)

/-- The vertical relink performed on each option node visited by
`Dlx::unhide` (exact inverse of `unlinkStep` on consistent lists). -/
def relinkStep (s : Dlx I N) (q : Nat) : Dlx I N :=
  let pr := (s.bget q).prevF
  let nx := (s.bget q).nextF
  let tp := (s.bget q).topF
  (((s.setNextAt pr q).setPrevAt nx q).incSizeAt tp)

/-- The `while q != idx` loop of `Dlx::hide`. -/
def hideLoop (s : Dlx I N) (idx : Nat) (q : Nat) : Nat → Dlx I N
  | 0 => s
  | fuel + 1 =>
    if q = idx then s
    else
      match s.bget q with
      | .boundary _ firstForPrev _ => s.hideLoop idx firstForPrev fuel
      | .normal _ (.body _ _) => (s.unlinkStep q).hideLoop idx (q + 1) fuel
      | .normal _ (.header _) => s

/-- `Dlx::hide`: remove the subset containing the node at `idx` from the
grid (all columns except the one of `idx` itself). -/
def hide (s : Dlx I N) (idx : Nat) : Dlx I N :=
  s.hideLoop idx (idx + 1) (s.body.length + 2)

/-- The `while q != idx` loop of `Dlx::unhide`. -/
def unhideLoop (s : Dlx I N) (idx : Nat) (q : Nat) : Nat → Dlx I N
  | 0 => s
  | fuel + 1 =>
    if q = idx then s
    else
      match s.bget q with
      | .boundary _ _ lastForNext => s.unhideLoop idx lastForNext fuel
      | .normal _ (.body _ _) => (s.relinkStep q).unhideLoop idx (q - 1) fuel
      | .normal _ (.header _) => s

/-- `Dlx::unhide`: revert `hide idx`. -/
def unhide (s : Dlx I N) (idx : Nat) : Dlx I N :=
  s.unhideLoop idx (idx - 1) (s.body.length + 2)

/-- The `while p != idx` loop of `Dlx::cover`. -/
def coverLoop (s : Dlx I N) (idx p : Nat) : Nat → Dlx I N
  | 0 => s
  | fuel + 1 =>
    if p = idx then s
    else
      let s1 := s.hide p
      s1.coverLoop idx ((s1.bget p).nextF) fuel

/-- `Dlx::cover`: hide every subset using item `idx`, then unlink the
header from the horizontal item list. -/
def cover (s : Dlx I N) (idx : Nat) : Dlx I N :=
  let s1 := s.coverLoop idx ((s.bget idx).nextF) (s.body.length + 2)
  let pr := (s1.hget idx).node.prev
  let nx := (s1.hget idx).node.next
  (s1.hsetNextAt pr nx).hsetPrevAt nx pr

/-- The `while p != idx` loop of `Dlx::uncover`. -/
def uncoverLoop (s : Dlx I N) (idx p : Nat) : Nat → Dlx I N
  | 0 => s
  | fuel + 1 =>
    if p = idx then s
    else
      let s1 := s.unhide p
      s1.uncoverLoop idx ((s1.bget p).prevF) fuel

/-- `Dlx::uncover`: relink the header, then unhide the column's subsets in
reverse order. -/
def uncover (s : Dlx I N) (idx : Nat) : Dlx I N :=
  let pr := (s.hget idx).node.prev
  let nx := (s.hget idx).node.next
  let s1 := (s.hsetNextAt pr idx).hsetPrevAt nx idx
  s1.uncoverLoop idx ((s1.bget idx).prevF) (s1.body.length + 2)

/-- The `while p != top` loop of `Dlx::purify`. -/
def purifyLoop (s : Dlx I N) (top c p : Nat) : Nat → Dlx I N
  | 0 => s
  | fuel + 1 =>
    if p = top then s
    else
      let s1 := if (s.bget p).colorF = some c then s.clearColorAt p else s.hide p
      s1.purifyLoop top c ((s1.bget p).nextF) fuel

/-- `Dlx::purify`: walk the whole column of the colored node at `idx`,
clearing matching colors and hiding everything else.  The panic on an
uncolored node is modelled as the identity. -/
def purify (s : Dlx I N) (idx : Nat) : Dlx I N :=
  match s.bget idx with
  | .normal _ (.body (some c) top) =>
    s.purifyLoop top c ((s.bget top).nextF) (s.body.length + 2)
  | _ => s

/-- The `while p != top` loop of `Dlx::unpurify`. -/
def unpurifyLoop (s : Dlx I N) (top c p : Nat) : Nat → Dlx I N
  | 0 => s
  | fuel + 1 =>
    if p = top then s
    else
      let s1 := if (s.bget p).colorF = none then s.setColorAt p c else s.unhide p
      s1.unpurifyLoop top c ((s1.bget p).prevF) fuel

/-- `Dlx::unpurify`: revert `purify idx`. -/
def unpurify (s : Dlx I N) (idx : Nat) : Dlx I N :=
  match s.bget idx with
  | .normal _ (.body (some c) top) =>
    s.unpurifyLoop top c ((s.bget top).prevF) (s.body.length + 2)
  | _ => s

/-- `Dlx::commit`. -/
def commit (s : Dlx I N) (idx top : Nat) : Dlx I N :=
  if (s.hget top).isPrimary then s.cover top
  else if (s.bget idx).colorF.isSome then s.purify idx
  else s

/-- `Dlx::uncommit`. -/
def uncommit (s : Dlx I N) (idx top : Nat) : Dlx I N :=
  if (s.hget top).isPrimary then s.uncover top
  else if (s.bget idx).colorF.isSome then s.unpurify idx
  else s

/-- The `while p != idx` loop of `Dlx::cover_remaining_choices`. -/
def coverRemainingLoop (s : Dlx I N) (idx p : Nat) : Nat → Dlx I N
  | 0 => s
  | fuel + 1 =>
    if p = idx then s
    else
      match s.bget p with
      | .boundary _ firstForPrev _ => s.coverRemainingLoop idx firstForPrev fuel
      | .normal _ (.body _ top) => (s.commit p top).coverRemainingLoop idx (p + 1) fuel
      | .normal _ (.header _) => s

/-- `Dlx::cover_remaining_choices`. -/
def coverRemainingChoices (s : Dlx I N) (idx : Nat) : Dlx I N :=
  s.coverRemainingLoop idx (idx + 1) (s.body.length + 2)

/-- The `while p != idx` loop of `Dlx::uncover_remaining_choices`. -/
def uncoverRemainingLoop (s : Dlx I N) (idx p : Nat) : Nat → Dlx I N
  | 0 => s
  | fuel + 1 =>
    if p = idx then s
    else
      match s.bget p with
      | .boundary _ _ lastForNext => s.uncoverRemainingLoop idx lastForNext fuel
      | .normal _ (.body _ top) => (s.uncommit p top).uncoverRemainingLoop idx (p - 1) fuel
      | .normal _ (.header _) => s

/-- `Dlx::uncover_remaining_choices`. -/
def uncoverRemainingChoices (s : Dlx I N) (idx : Nat) : Dlx I N :=
  s.uncoverRemainingLoop idx (idx - 1) (s.body.length + 2)

/-- The `while opt != 0` loop of `Dlx::choose_item`. -/
def chooseItemLoop (s : Dlx I N) (opt : Nat) (best : Option Nat × Nat) :
    Nat → Option Nat × Nat
  | 0 => best
  | fuel + 1 =>
    if opt = 0 then best
    else
      let len := (s.bget opt).sizeF
      let best1 :=
        match best with
        | (some b, minLen) => if minLen > len then (some opt, len) else (some b, minLen)
        | (none, _) => (some opt, len)
      s.chooseItemLoop ((s.hget opt).node.next) best1 fuel

/-- `Dlx::choose_item`: MRV selection over the active primary items. -/
def chooseItem (s : Dlx I N) : Option Nat :=
  (s.chooseItemLoop ((s.hget 0).node.next) (none, 0) (s.headers.length + 1)).1

/-- `Dlx::set_name_for_node`: scan upward for the next boundary and return
its name.  The `unwrap` panic on an unnamed boundary is modelled by the
`Option.join`. -/
def setNameForNode (s : Dlx I N) (idx : Nat) : Option N :=
  ((List.range' (idx + 1) s.body.length).findSome? fun q =>
    match s.bget q with
    | .boundary nm _ _ => some nm
    | .normal _ _ => none).join

end Dlx

namespace Dlx

variable {I N : Type}

mutual

/-- The `'cover_new_item` outer loop of `Dlx::find_solution`: choose an
item by MRV, cover it and descend, or emit the current trail as a
solution.  Returns the solution (as raw option-node indices) and the
matrix state at return time. -/
def findSolutionOuter (s : Dlx I N) (solution : List Nat) :
    Nat → Option (List Nat) × Dlx I N
  | 0 => (none, s)
  | fuel + 1 =>
    match s.chooseItem with
    | some item => (s.cover item).findSolutionInner (solution ++ [item]) fuel
    | none => (some solution, s)

/-- The `while let Some(p) = solution.pop()` backtracking loop of
`Dlx::find_solution`. -/
def findSolutionInner (s : Dlx I N) (solution : List Nat) :
    Nat → Option (List Nat) × Dlx I N
  | 0 => (none, s)
  | fuel + 1 =>
    match solution.getLast? with
    | none => (none, s)
    | some p =>
      let solution1 := solution.dropLast
      let s1 := if (s.bget p).isBodyN then s.uncoverRemainingChoices p else s
      let p2 := (s1.bget p).nextF
      match s1.bget p2 with
      | .normal _ (.header _) => (s1.uncover p2).findSolutionInner solution1 fuel
      | .normal _ (.body _ _) =>
        (s1.coverRemainingChoices p2).findSolutionOuter (solution1 ++ [p2]) fuel
      | .boundary _ _ _ => (none, s1)

end

/-- `Dlx::find_solution`: run the search and translate the trail into
subset names.  The extra fuel argument bounds the number of loop
transitions; any value at least the length of the actual run gives the
behaviour of the source. -/
def findSolution (s : Dlx I N) (fuel : Nat) :
    Option (List (Option N)) × Dlx I N :=
  let r := s.findSolutionOuter [] fuel
  (r.1.map (List.map r.2.setNameForNode), r.2)

end Dlx

/-- `ColorItem<I>` from dlx.rs. -/
structure ColorItem (I : Type) where
  item : I
  color : Nat
deriving DecidableEq

/-- `Constraint<I>` from dlx.rs. -/
inductive Constraint (I : Type) where
  | primary (item : I)
  | secondary (colorItem : ColorItem I)
deriving DecidableEq

/-- `Constraint::item`. -/
def Constraint.item {I : Type} : Constraint I → I
  | .primary i => i
  | .secondary ci => ci.item

/-- `Constraint::color`. -/
def Constraint.color {I : Type} : Constraint I → Option Nat
  | .primary _ => none
  | .secondary ci => some ci.color

/-- Construction-time failures.  In the source these are `panic!`s
(`DuplicateItem`, `DuplicateSubset`, `UnknownItem`) and one
`debug_assert!` (`KindMismatch`); they are modelled as `Except` errors. -/
inductive ConstructError where
  | duplicateItem
  | duplicateSubset
  | unknownItem
  | kindMismatch
deriving DecidableEq

namespace Construct

variable {I N : Type} [DecidableEq I] [DecidableEq N]

/-- State threaded while `Dlx::construct` lays out the item headers. -/
structure HeaderState (I N : Type) where
  itemMap : List (I × Nat)
  headers : List (Header I)
  body : List (DNode N)

/-- The `headers.extend(... .map(...))` pass of `Dlx::construct`: one
header plus one column-head body slot per item, with the duplicate-item
panic. -/
def pushItems (st : HeaderState I N) (idx : Nat) :
    List (I × HeaderType) → Except ConstructError (HeaderState I N)
  | [] => .ok st
  | (item, headerType) :: rest =>
    let newIdx := idx + 1
    if (st.itemMap.lookup item).isSome then .error .duplicateItem
    else
      pushItems
        { itemMap := st.itemMap ++ [(item, newIdx)]
          headers := st.headers ++
            [{ item := some item
               node := { prev := newIdx - 1, next := newIdx + 1 }
               headerType := headerType }]
          body := st.body ++
            [.normal { prev := newIdx, next := newIdx } (.header 0)] }
        newIdx rest

/-- Append one option node for one constraint, as in the inner
`constraints.into_iter().for_each(...)` of `Dlx::construct`.  The
`debug_assert!` kind check fires only when `dbg` is set (debug builds). -/
def pushConstraint (dbg : Bool) (itemMap : List (I × Nat))
    (headers : List (Header I)) (body : List (DNode N))
    (constraint : Constraint I) : Except ConstructError (List (DNode N)) :=
  match itemMap.lookup constraint.item with
  | none => .error .unknownItem
  | some headerIdx =>
    let header := body.getD headerIdx (.boundary none 0 0)
    let prevIdx := header.prevF
    let kindOk :=
      match (headers.getD headerIdx ⟨none, ⟨0, 0⟩, .primary⟩).headerType, constraint with
      | .primary, .primary _ => true
      | .secondary, .secondary _ => true
      | _, _ => false
    if dbg && !kindOk then .error .kindMismatch
    else
      let idx := body.length
      let body := body.set headerIdx ((header.setPrevF idx).incSizeF)
      let body := body.set prevIdx ((body.getD prevIdx (.boundary none 0 0)).setNextF idx)
      .ok (body ++
        [.normal { prev := prevIdx, next := headerIdx }
          (.body constraint.color headerIdx)])

/-- Fold `pushConstraint` over a subset's constraint list. -/
def pushConstraints (dbg : Bool) (itemMap : List (I × Nat))
    (headers : List (Header I)) (body : List (DNode N)) :
    List (Constraint I) → Except ConstructError (List (DNode N))
  | [] => .ok body
  | c :: rest => do
    let body ← pushConstraint dbg itemMap headers body c
    pushConstraints dbg itemMap headers body rest

/-- Patch `last_for_next` of the boundary that precedes a just-laid-out
subset (the `if let Some(Node::Boundary ...)` block; the `unreachable!`
arm is modelled as the identity). -/
def setLastForNext (body : List (DNode N)) (i v : Nat) : List (DNode N) :=
  body.set i
    (match body.getD i (.boundary none 0 0) with
     | .boundary nm f _ => .boundary nm f v
     | other => other)

/-- The `for (name, constraints) in subsets` loop of `Dlx::construct`. -/
def pushSubsets (dbg : Bool) (itemMap : List (I × Nat))
    (headers : List (Header I)) (subsetNames : List N) (body : List (DNode N)) :
    List (N × List (Constraint I)) → Except ConstructError (List (DNode N))
  | [] => .ok body
  | (name, constraints) :: rest => do
    if name ∈ subsetNames then throw .duplicateSubset
    let lastStartIndex := body.length
    let body ← pushConstraints dbg itemMap headers body constraints
    let lastIdx := body.length - 1
    let body := setLastForNext body (lastStartIndex - 1) lastIdx
    let body := body ++ [.boundary (some name) lastStartIndex 0]
    pushSubsets dbg itemMap headers (subsetNames ++ [name]) body rest

end Construct

/-- `Dlx::construct` (and `Dlx::new`): build the arena from the item list
and the named subsets.  `dbg` selects whether `debug_assert!`s are
compiled in. -/
def constructE {I N : Type} [DecidableEq I] [DecidableEq N] (dbg : Bool)
    (items : List (I × HeaderType)) (subsets : List (N × List (Constraint I))) :
    Except ConstructError (Dlx I N) := do
  let primaryHeaders := items.filter fun it => it.2 = HeaderType.primary
  let secondaryHeaders := items.filter fun it => it.2 = HeaderType.secondary
  let primaryHeadersLen := primaryHeaders.length
  let st0 : Construct.HeaderState I N :=
    { itemMap := []
      headers := [{ item := none, node := { prev := 0, next := 1 },
                    headerType := .primary }]
      body := [.boundary none 0 0] }
  let st ← Construct.pushItems st0 0 (primaryHeaders ++ secondaryHeaders)
  let lastIdx := st.headers.length
  let headers := st.headers ++
    [{ item := none
       node := { prev := lastIdx - 1, next := primaryHeadersLen + 1 }
       headerType := .secondary }]
  let fixup0 := headers.getD 0 ⟨none, ⟨0, 0⟩, .primary⟩
  let headers := headers.set 0 { fixup0 with node := { fixup0.node with prev := primaryHeadersLen } }
  let fixup1 := headers.getD primaryHeadersLen ⟨none, ⟨0, 0⟩, .primary⟩
  let headers := headers.set primaryHeadersLen
    { fixup1 with node := { fixup1.node with next := 0 } }
  let fixup2 := headers.getD (primaryHeadersLen + 1) ⟨none, ⟨0, 0⟩, .primary⟩
  let headers := headers.set (primaryHeadersLen + 1)
    { fixup2 with node := { fixup2.node with prev := lastIdx } }
  let fixup3 := headers.getD lastIdx ⟨none, ⟨0, 0⟩, .primary⟩
  let headers := headers.set lastIdx
    { fixup3 with node := { fixup3.node with next := primaryHeadersLen + 1 } }
  let body := st.body ++ [.boundary none 0 0]
  let body ← Construct.pushSubsets dbg st.itemMap headers [] body subsets
  let numPrimaryItems := (headers.getD 0 ⟨none, ⟨0, 0⟩, .primary⟩).node.prev
  .ok { numPrimaryItems := numPrimaryItems, headers := headers, body := body }

/-!  kakuro.rs: `TotalClue::all_combinations_for_range`.

The Rust function returns a lazy iterator built from one optional first
emission plus a `scan` over an explicit backtracking state
`(choices, slack, air)`.  `slack`/`air` are `i32` (here `Int`); `choices`
holds `u32` digits (here `Nat`).  `u32` subtraction that cannot underflow
for in-contract inputs is Nat subtraction; `saturating_sub` is Nat
subtraction; `wrapping_sub` carries an explicit modulo `2 ^ 32`. -/

namespace Comb

/-- The state threaded through the `scan` closure. -/
structure CombState where
  choices : List Nat
  slack : Int
  air : Int
deriving DecidableEq

/-- The initial block of `all_combinations_for_range`: seed `choices` with
the first (possibly air-forced) digit and fix up `slack`/`air`. -/
def combInit (minV maxV numTiles : Nat) : CombState :=
  let tri : Nat := numTiles * (numTiles + 1) / 2
  let slack : Int := (maxV : Int) - (tri : Int)
  let air : Int := (minV : Int) - (tri : Int)
  let maxExtraFromRemainder : Nat :=
    9 * (numTiles - 1) - (numTiles - 1) * ((numTiles + (W32 - 2)) % W32) / 2 % W32
  let extra : Nat := (max air 0).toNat - maxExtraFromRemainder
  { choices := [1 + extra]
    slack := slack - (extra * numTiles : Nat)
    air := air - (extra * numTiles : Nat) }

/-- The `iter::once(...)` head of the stream: emit the seed if it is
already a full tuple in range (note: no `< 10` digit check here). -/
def combFirstOut (numTiles : Nat) (st : CombState) : Option (Nat × List Nat) :=
  if st.choices.length = numTiles ∧ st.air ≤ 0 ∧ 0 ≤ st.slack then
    some (st.choices.headD 0, st.choices)
  else none

/-- One iteration of the `scan` closure: pop the working digit, either
backtrack (bumping the predecessor) or extend the prefix, and emit the
completed tuple when it sums into range and ends below 10.  Returns
`none` when `choices` is exhausted (stream end). -/
def combStep (minV numTiles : Nat) (st : CombState) :
    Option (CombState × Option (Nat × List Nat)) :=
  match st.choices.getLast? with
  | none => none
  | some top =>
    let choices := st.choices.dropLast
    let remaining := numTiles - choices.length
    let next : CombState :=
      if st.slack < 0 ∨ top = 11 - remaining then
        match choices.getLast? with
        | some choice =>
          let diff : Int := ((remaining * (top - choice - 1) : Nat) : Int) -
            ((remaining : Int) + 1)
          { choices := choices.dropLast ++ [choice + 1]
            slack := st.slack + diff, air := st.air + diff }
        | none => { st with choices := choices }
      else if remaining = 1 then
        { choices := choices ++ [top + 1], slack := st.slack - 1, air := st.air - 1 }
      else if 0 < st.air then
        let rem := remaining - 1
        let maxExtraFromRemainder : Nat := (rem - 1) * (9 - rem - top)
        let extra : Nat := st.air.toNat - maxExtraFromRemainder
        { choices := choices ++ [top, top + 1 + extra]
          slack := st.slack - (extra * rem : Nat)
          air := st.air - (extra * rem : Nat) }
      else
        { choices := choices ++ [top, top + 1], slack := st.slack, air := st.air }
    let out :=
      if next.choices.length = numTiles ∧
          (next.choices.getLast?.getD 10) < 10 ∧
          next.air ≤ 0 ∧ 0 ≤ next.slack then
        some ((((minV : Int) - next.air).toNat), next.choices)
      else none
    some (next, out)

/-- Drive `combStep` until the stream ends, collecting emissions. -/
def combIter (minV numTiles : Nat) (st : CombState) : Nat → List (Nat × List Nat)
  | 0 => []
  | fuel + 1 =>
    match combStep minV numTiles st with
    | none => []
    | some (st1, out) => out.toList ++ combIter minV numTiles st1 fuel

end Comb

/-- `TotalClue::all_combinations_for_range`, fully collected.  Any fuel at
least the number of `scan` iterations of the source run gives the source's
output list. -/
def allCombinationsForRange (minV maxV numTiles fuel : Nat) : List (Nat × List Nat) :=
  let st := Comb.combInit minV maxV numTiles
  (Comb.combFirstOut numTiles st).toList ++ Comb.combIter minV numTiles st fuel

/-!  parenthesis_split.rs: `ParenthesesAwareSplitIter`.  Strings are
modelled as `List Char`. -/

/-- The `fold_while` of `ParenthesesAwareSplitIter::next`: index of the
first comma at parenthesis depth zero. -/
def findCommaIdx : List Char → Int → Nat → Option Nat
  | [], _, _ => none
  | c :: rest, depth, idx =>
    if c = '(' then findCommaIdx rest (depth + 1) (idx + 1)
    else if c = ')' then findCommaIdx rest (depth - 1) (idx + 1)
    else if c = ',' then
      if depth = 0 then some idx else findCommaIdx rest depth (idx + 1)
    else findCommaIdx rest depth (idx + 1)

/-- Repeated `ParenthesesAwareSplitIter::next`: split at top-level commas
(the fuel is consumed once per produced token). -/
def splitParenFuel : Nat → List Char → List (List Char)
  | 0, _ => []
  | fuel + 1, s =>
    match findCommaIdx s 0 0 with
    | some endIdx => s.take endIdx :: splitParenFuel fuel (s.drop (endIdx + 1))
    | none => if s.isEmpty then [] else [s]

/-- `str::split_paren`, collected. -/
def splitParen (s : List Char) : List (List Char) :=
  splitParenFuel (s.length + 1) s

/-!  kakuro.rs: the tile model and the per-line body of
`Kakuro::from_file`. -/

/-- `TotalClue` from kakuro.rs. -/
inductive TotalClue where
  | oneDigit (digit : Char)
  | twoDigit (ones tens : Char)
deriving DecidableEq

/-- `TotalClue::new`; the `unreachable!` on other lengths is modelled as
`none`. -/
def TotalClue.new (clue : List Char) : Option TotalClue :=
  match clue with
  | [c] => some (.oneDigit c)
  | [t, o] => some (.twoDigit o t)
  | _ => none

/-- `TotalTile` from kakuro.rs. -/
structure TotalTile where
  horizontal : Option TotalClue
  vertical : Option TotalClue
deriving DecidableEq

/-- `UnknownTile` from kakuro.rs. -/
inductive UnknownTile where
  | blank
  | prefilled (hint : Char)
deriving DecidableEq

/-- `Tile` from kakuro.rs. -/
inductive Tile where
  | empty
  | unknown (u : UnknownTile)
  | total (t : TotalTile)
deriving DecidableEq

/-- Lexicographic `≤` on strings, as used by the Rust range pattern
`("A"..="J").contains(&part)`. -/
def strLe : List Char → List Char → Bool
  | [], _ => true
  | _ :: _, [] => false
  | a :: as_, b :: bs => if a = b then strLe as_ bs else decide (a < b)

/-- `str::parse::<usize>` on a token, digits only (parse errors are
`unwrap`ed to a panic in the source, modelled as `none`). -/
def parseNatToken (s : List Char) : Option Nat :=
  if s.isEmpty then none
  else s.foldl (fun acc c =>
    acc.bind fun n => if c.isDigit then some (10 * n + (c.toNat - '0'.toNat)) else none)
    (some 0)

/-- The `line.split(',').fold(...)` that interprets the rules inside a
parenthesised clue token. -/
def parseTotalTile (inner : List Char) : TotalTile :=
  (inner.splitOn ',').foldl
    (fun totalTile rule =>
      match rule with
      | 'v' :: rest =>
        { totalTile with vertical := TotalClue.new rest }
      | 'h' :: rest =>
        { totalTile with horizontal := TotalClue.new rest }
      | _ => totalTile)
    { horizontal := none, vertical := none }

/-- The per-token branch of the `from_file` cell loop.  A token matching
no branch contributes nothing (the source pushes no tile for it). -/
def parseCellToken (part : List Char) : List Tile :=
  if part = ['X'] then [.empty]
  else if part = ['O'] then [.unknown .blank]
  else if strLe ['A'] part && strLe part ['J'] then
    [.unknown (.prefilled (part.headD ' '))]
  else
    match part with
    | '(' :: rest =>
      if rest.getLast? = some ')' then [.total (parseTotalTile rest.dropLast)]
      else []
    | _ => []

/-- The body of the `for line in f.lines()` loop of `Kakuro::from_file`
for a single input line: split the line at top-level commas, parse token 0
as the dimension `n`, then read the `n * n` cell tokens at positions
`i * n + j + 1`.  Out-of-range indexing and parse failures (panics in the
source) are modelled as `none`. -/
def parseGridLine (line : List Char) : Option (Nat × List Tile) := do
  let parts := splitParen line
  let first ← parts.head?
  let n ← parseNatToken first
  let cells := (List.range (n * n)).foldl
    (fun acc k =>
      acc.bind fun tiles =>
        (parts.get? (k + 1)).map fun part => tiles ++ parseCellToken part)
    (some [])
  let tiles ← cells
  pure (n, tiles)

/-!  sudoku.rs: the item universe of `Sudoku::solve`. -/

/-- The (locally declared) `Item` enum of `Sudoku::solve`. -/
inductive SudokuItem where
  | cell (row col : Nat)
  | row (col digit : Nat)
  | col (row digit : Nat)
  | box (idx digit : Nat)
deriving DecidableEq

/-- The `(0..81).flat_map(...)` item collection of `Sudoku::solve`, before
pre-filled removal: for arena index `i`, `row = i % 9`, `col = i / 9`, and
the `Box` entry is enumerated as `Box { idx: row, digit: col + 1 }`. -/
def sudokuCollectedItems : List SudokuItem :=
  (List.range 81).flatMap fun i =>
    let row := i % 9
    let col := i / 9
    [.cell row col, .row col (row + 1), .col row (col + 1), .box row (col + 1)]

/-- Modelled from the spec: the standard 324 exact-cover items
`{Cell(r,c)} ∪ {Row(c,d)} ∪ {Col(r,d)} ∪ {Box(b,d)}` for `r, c, b` in
`0..=8` and `d` in `1..=9` (the comparison target of claim C10). -/
def sudokuStandardItems : List SudokuItem :=
  ((List.range 9).flatMap fun r => (List.range 9).map fun c => SudokuItem.cell r c) ++
  ((List.range 9).flatMap fun c => (List.range 9).map fun d => SudokuItem.row c (d + 1)) ++
  ((List.range 9).flatMap fun r => (List.range 9).map fun d => SudokuItem.col r (d + 1)) ++
  ((List.range 9).flatMap fun b => (List.range 9).map fun d => SudokuItem.box b (d + 1))

/-- The four-constraint subset generated by `Sudoku::solve` for placing
`digit` in the empty cell `(row, col)`, with the `Box` index computed as
the 3×3 block index `(row / 3) * 3 + col / 3`. -/
def sudokuChoice (row col digit : Nat) : List SudokuItem :=
  let idx := (row / 3) * 3 + col / 3
  [.cell row col, .row col digit, .col row digit, .box idx digit]

/-!  Concrete instances used by the claims (the `test_simple_colors`
fixture of dlx.rs and a one-item unsatisfiable instance). -/

/-- Items of the `test_simple_colors` instance. -/
def s4items : List (Char × HeaderType) :=
  [('p', .primary), ('q', .primary), ('a', .secondary)]

/-- Subsets of the `test_simple_colors` instance (names `s0`–`s3`). -/
def s4subsets : List (String × List (Constraint Char)) :=
  [("s0", [.primary 'p', .secondary ⟨'a', 1⟩]),
   ("s1", [.primary 'p', .secondary ⟨'a', 2⟩]),
   ("s2", [.primary 'q', .secondary ⟨'a', 3⟩]),
   ("s3", [.primary 'q', .secondary ⟨'a', 1⟩])]

/-- The constructed `test_simple_colors` matrix. -/
def dlxS4 : Dlx Char String :=
  match constructE false s4items s4subsets with
  | .ok d => d
  | .error _ => ⟨0, [], []⟩

/-- A matrix with one primary item and no subsets: the search must fail. -/
def dlxNoSol : Dlx Char Nat :=
  match constructE false [('p', .primary)] ([] : List (Nat × List (Constraint Char))) with
  | .ok d => d
  | .error _ => ⟨0, [], []⟩

/-!  Structural well-formedness of the arena, used to state and prove the
reversibility and characterisation theorems.  All predicates are
decidable so that concrete witnesses can be checked by `decide`. -/

namespace DNode

variable {N : Type}

/-- The `first_for_prev` field of a boundary (0 otherwise). -/
def firstForPrevF : DNode N → Nat
  | .boundary _ f _ => f
  | _ => 0

/-- The `last_for_next` field of a boundary (0 otherwise). -/
def lastForNextF : DNode N → Nat
  | .boundary _ _ l => l
  | _ => 0

end DNode

namespace Dlx

variable {I N : Type}

/-- Vertical `next` of a body slot. -/
def nxt (s : Dlx I N) (i : Nat) : Nat := (s.bget i).nextF

/-- Vertical `prev` of a body slot. -/
def prv (s : Dlx I N) (i : Nat) : Nat := (s.bget i).prevF

/-- `top` of a body slot. -/
def topAt (s : Dlx I N) (i : Nat) : Nat := (s.bget i).topF

/-- Color of a body slot. -/
def colorAt (s : Dlx I N) (i : Nat) : Option Nat := (s.bget i).colorF

/-- Size of a column-head slot. -/
def sizeAt (s : Dlx I N) (i : Nat) : Nat := (s.bget i).sizeF

/-- Local doubly-linked-list consistency of the option node `q`: its
slot is an option node, its vertical neighbours are in range, are normal
nodes, and point back at `q`. -/
def consistentAt (s : Dlx I N) (q : Nat) : Prop :=
  q < s.body.length ∧
  (s.bget q).isBodyN = true ∧
  s.prv q < s.body.length ∧ s.nxt q < s.body.length ∧
  (s.bget (s.prv q)).isBoundaryN = false ∧
  (s.bget (s.nxt q)).isBoundaryN = false ∧
  s.nxt (s.prv q) = q ∧ s.prv (s.nxt q) = q

instance (s : Dlx I N) (q : Nat) : Decidable (s.consistentAt q) := by
  unfold consistentAt; infer_instance

/-- All stored sizes are genuine `usize` values (below `2 ^ 64`), so that
a decrement/increment pair is exactly the identity. -/
def sizesOk (s : Dlx I N) : Prop :=
  ∀ j < s.body.length, (s.bget j).sizeF < W64

instance (s : Dlx I N) : Decidable (s.sizesOk) := by
  unfold sizesOk; infer_instance

/-- Fold of vertical unlinks, the mutation content of `hide`. -/
def unlinkFold (s : Dlx I N) (X : List Nat) : Dlx I N := X.foldl unlinkStep s

/-- Fold of vertical relinks, the mutation content of `unhide`. -/
def relinkFold (s : Dlx I N) (X : List Nat) : Dlx I N := X.foldl relinkStep s

/-- Scan downward from `q` to the first slot whose predecessor is a
boundary. -/
def blockStartAux (s : Dlx I N) : Nat → Nat → Nat
  | 0, q => q
  | fuel + 1, q =>
    if (s.bget (q - 1)).isBoundaryN = true ∨ q = 0 then q
    else s.blockStartAux fuel (q - 1)

/-- First option-node index of the subset block containing `p`. -/
def blockStart (s : Dlx I N) (p : Nat) : Nat := s.blockStartAux s.body.length p

/-- Scan upward from `q` to the first slot whose successor is a
boundary. -/
def blockEndAux (s : Dlx I N) : Nat → Nat → Nat
  | 0, q => q
  | fuel + 1, q =>
    if (s.bget (q + 1)).isBoundaryN = true then q
    else s.blockEndAux fuel (q + 1)

/-- Last option-node index of the subset block containing `p`. -/
def blockEnd (s : Dlx I N) (p : Nat) : Nat := s.blockEndAux s.body.length p

/-- The option nodes of the block `[a, b]` other than `p`, in the order
`hide p` visits them: forward from `p + 1` to `b`, then (after the
boundary jump) from `a` to `p - 1`. -/
def hideSeq (p a b : Nat) : List Nat :=
  List.range' (p + 1) (b - p) ++ List.range' a (p - a)

/-- The structural facts about the block `[a, b]` around the option node
`p` that drive the `hide`/`unhide` walks. -/
def blockFacts (s : Dlx I N) (p a b : Nat) : Prop :=
  1 ≤ a ∧ a ≤ p ∧ p ≤ b ∧ b + 1 < s.body.length ∧
  (∀ q < b + 1, a ≤ q → (s.bget q).isBodyN = true) ∧
  (s.bget (a - 1)).isBoundaryN = true ∧
  (s.bget (b + 1)).isBoundaryN = true ∧
  (s.bget (a - 1)).lastForNextF = b ∧
  (s.bget (b + 1)).firstForPrevF = a

instance (s : Dlx I N) (p a b : Nat) : Decidable (s.blockFacts p a b) := by
  unfold blockFacts; infer_instance

/-- Well-formedness of a single `hide p` / `unhide p` pair: the block
around `p` is properly delimited and every other node of the block is
consistently linked into its column. -/
def WfHide (s : Dlx I N) (p : Nat) : Prop :=
  s.blockFacts p (s.blockStart p) (s.blockEnd p) ∧
  ∀ q ∈ hideSeq p (s.blockStart p) (s.blockEnd p), s.consistentAt q

instance (s : Dlx I N) (p : Nat) : Decidable (s.WfHide p) := by
  unfold WfHide; infer_instance

/-- `j` belongs to the column of head `c`: it is the head itself or an
option node whose `top` is `c`. -/
def inCol (s : Dlx I N) (c j : Nat) : Prop :=
  j = c ∨ ((s.bget j).isBodyN = true ∧ s.topAt j = c)

instance (s : Dlx I N) (c j : Nat) : Decidable (s.inCol c j) := by
  unfold inCol; infer_instance

/-- The vertical links of the option node `x` stay inside its own
column. -/
def linksInCol (s : Dlx I N) (x : Nat) : Prop :=
  s.inCol (s.topAt x) (s.prv x) ∧ s.inCol (s.topAt x) (s.nxt x)

instance (s : Dlx I N) (x : Nat) : Decidable (s.linksInCol x) := by
  unfold linksInCol; infer_instance

/-- Frame discipline of `hide p` with respect to the column of head `c`:
every node the walk unlinks lives in a column other than `c`, its links
stay inside that column, and that column's top slot is a real column
head. -/
def hideAvoidsCol (s : Dlx I N) (p c : Nat) : Prop :=
  ∀ q ∈ hideSeq p (s.blockStart p) (s.blockEnd p),
    s.topAt q ≠ c ∧ (s.bget (s.topAt q)).isHeaderN = true ∧ s.linksInCol q

instance (s : Dlx I N) (p c : Nat) : Decidable (s.hideAvoidsCol p c) := by
  unfold hideAvoidsCol; infer_instance

/-- Forward vertical chain from `q` until `stop`, when it closes within
the fuel. -/
def chainNext (s : Dlx I N) (stop : Nat) : Nat → Nat → Option (List Nat)
  | _, 0 => none
  | q, fuel + 1 =>
    if q = stop then some []
    else (s.chainNext stop (s.nxt q) fuel).map (fun L => q :: L)

/-- The vertical list of column `i` (from `head.next` back to the head),
when it closes. -/
def chainOf (s : Dlx I N) (i : Nat) : Option (List Nat) :=
  s.chainNext i (s.nxt i) (s.body.length + 1)

/-- The vertical list of column `i`, defaulting to `[]`. -/
def chainList (s : Dlx I N) (i : Nat) : List Nat := (s.chainOf i).getD []

/-- Chain relation: starting at `q` and following `nxt`, the nodes `L`
are visited and the walk then reaches `stop`. -/
def IsChainFrom (s : Dlx I N) (stop : Nat) : Nat → List Nat → Prop
  | q, [] => q = stop
  | q, x :: T => q = x ∧ x ≠ stop ∧ s.IsChainFrom stop (s.nxt x) T

/-- The two blocks `[blockStart q, blockEnd q]` and
`[blockStart r, blockEnd r]` are disjoint position ranges. -/
def blocksDisjoint (s : Dlx I N) (q r : Nat) : Prop :=
  s.blockEnd q < s.blockStart r ∨ s.blockEnd r < s.blockStart q

instance (s : Dlx I N) (q r : Nat) : Decidable (s.blocksDisjoint q r) := by
  unfold blocksDisjoint; infer_instance

/-- Consistency of the horizontal neighbours of header `idx`, needed for
the header unlink/relink pair of `cover`/`uncover`. -/
def headerOk (s : Dlx I N) (idx : Nat) : Prop :=
  idx < s.headers.length ∧
  (s.hget idx).node.prev < s.headers.length ∧
  (s.hget idx).node.next < s.headers.length ∧
  (s.hget ((s.hget idx).node.prev)).node.next = idx ∧
  (s.hget ((s.hget idx).node.next)).node.prev = idx

instance (s : Dlx I N) (idx : Nat) : Decidable (s.headerOk idx) := by
  unfold headerOk; infer_instance

/-- Well-formedness of a single `cover i` / `uncover i` pair: the
horizontal neighbours of `i` are consistent, `i` heads a closed,
duplicate-free vertical chain of consistent option nodes of column `i`,
the head slot points back at the chain ends, each chain member's subset
block is well formed, avoids column `i`, and distinct members' blocks are
disjoint; all sizes are genuine. -/
def WfCover (s : Dlx I N) (i : Nat) : Prop :=
  s.headerOk i ∧
  i < s.body.length ∧
  (s.bget i).isHeaderN = true ∧
  (s.chainOf i).isSome = true ∧
  (s.chainList i).Nodup ∧
  i ∉ s.chainList i ∧
  s.prv i < s.body.length ∧
  s.prv (s.nxt i) = i ∧ s.nxt (s.prv i) = i ∧
  s.sizesOk ∧
  (∀ q ∈ s.chainList i, s.consistentAt q ∧ s.topAt q = i ∧
    s.WfHide q ∧ s.hideAvoidsCol q i) ∧
  (s.chainList i).Pairwise s.blocksDisjoint

instance (s : Dlx I N) (i : Nat) : Decidable (s.WfCover i) := by
  unfold WfCover; infer_instance

/-- Well-formedness of a single `purify p` / `unpurify p` pair: `p` is a
colored option node whose column head `h` heads a closed, duplicate-free
chain not containing `p`; every chain member is consistent, colored,
belongs to column `h`, has a well-formed block avoiding column `h`, and
distinct members' blocks are disjoint; all sizes are genuine. -/
def WfPurify (s : Dlx I N) (p : Nat) : Prop :=
  p < s.body.length ∧
  (s.bget p).isBodyN = true ∧
  (s.colorAt p).isSome = true ∧
  (s.chainOf (s.topAt p)).isSome = true ∧
  (s.chainList (s.topAt p)).Nodup ∧
  s.topAt p ∉ s.chainList (s.topAt p) ∧
  p ∉ s.chainList (s.topAt p) ∧
  (s.bget (s.topAt p)).isHeaderN = true ∧
  s.prv (s.topAt p) < s.body.length ∧
  s.prv (s.nxt (s.topAt p)) = s.topAt p ∧
  s.nxt (s.prv (s.topAt p)) = s.topAt p ∧
  s.sizesOk ∧
  (∀ q ∈ s.chainList (s.topAt p), s.consistentAt q ∧ s.topAt q = s.topAt p ∧
    (s.colorAt q).isSome = true ∧ s.WfHide q ∧ s.hideAvoidsCol q (s.topAt p)) ∧
  (s.chainList (s.topAt p)).Pairwise s.blocksDisjoint

instance (s : Dlx I N) (p : Nat) : Decidable (s.WfPurify p) := by
  unfold WfPurify; infer_instance

end Dlx

/-- The three reversible mutation primitives of the search, as data. -/
inductive Prim where
  | cover (i : Nat)
  | hide (p : Nat)
  | purify (p : Nat)
deriving DecidableEq

namespace Dlx

variable {I N : Type}

/-- Apply a forward primitive. -/
def applyPrim (s : Dlx I N) : Prim → Dlx I N
  | .cover i => s.cover i
  | .hide p => s.hide p
  | .purify p => s.purify p

/-- Apply the matching inverse primitive. -/
def unapplyPrim (s : Dlx I N) : Prim → Dlx I N
  | .cover i => s.uncover i
  | .hide p => s.unhide p
  | .purify p => s.unpurify p

/-- The per-primitive well-formedness precondition. -/
def WfPrim (s : Dlx I N) : Prim → Prop
  | .cover i => s.WfCover i
  | .hide p => s.WfHide p ∧ s.sizesOk
  | .purify p => s.WfPurify p

instance (s : Dlx I N) (m : Prim) : Decidable (s.WfPrim m) := by
  cases m <;> (unfold WfPrim; infer_instance)

/-- Stack-discipline well-formedness of a sequence of forward calls: each
primitive's precondition holds in the state left by the previous ones. -/
def WfSeq (s : Dlx I N) : List Prim → Prop
  | [] => True
  | m :: L => s.WfPrim m ∧ (s.applyPrim m).WfSeq L

instance (s : Dlx I N) (L : List Prim) : Decidable (s.WfSeq L) := by
  induction L generalizing s with
  | nil => exact .isTrue trivial
  | cons m L ih => unfold WfSeq; exact @instDecidableAnd _ _ _ (ih _)

end Dlx

/-!  Node-level algebra: how the field editors interact. -/

namespace DNode

variable {N : Type}

@[simp] lemma isBodyN_setNextF (v : Nat) (n : DNode N) :
    (n.setNextF v).isBodyN = n.isBodyN := by
  cases n with
  | boundary => rfl
  | normal i t => cases t <;> simp [setNextF, setPrevF, decSizeF, incSizeF, clearColorF, setColorF, isBodyN, isHeaderN, isBoundaryN, topF, colorF, sizeF, prevF, nextF, firstForPrevF, lastForNextF]

@[simp] lemma isBodyN_setPrevF (v : Nat) (n : DNode N) :
    (n.setPrevF v).isBodyN = n.isBodyN := by
  cases n with
  | boundary => rfl
  | normal i t => cases t <;> simp [setNextF, setPrevF, decSizeF, incSizeF, clearColorF, setColorF, isBodyN, isHeaderN, isBoundaryN, topF, colorF, sizeF, prevF, nextF, firstForPrevF, lastForNextF]

@[simp] lemma isBodyN_decSizeF (n : DNode N) : n.decSizeF.isBodyN = n.isBodyN := by
  cases n with
  | boundary => rfl
  | normal i t => cases t <;> simp [setNextF, setPrevF, decSizeF, incSizeF, clearColorF, setColorF, isBodyN, isHeaderN, isBoundaryN, topF, colorF, sizeF, prevF, nextF, firstForPrevF, lastForNextF]

@[simp] lemma isBodyN_incSizeF (n : DNode N) : n.incSizeF.isBodyN = n.isBodyN := by
  cases n with
  | boundary => rfl
  | normal i t => cases t <;> simp [setNextF, setPrevF, decSizeF, incSizeF, clearColorF, setColorF, isBodyN, isHeaderN, isBoundaryN, topF, colorF, sizeF, prevF, nextF, firstForPrevF, lastForNextF]

@[simp] lemma isBodyN_clearColorF (n : DNode N) : n.clearColorF.isBodyN = n.isBodyN := by
  cases n with
  | boundary => rfl
  | normal i t => cases t <;> simp [setNextF, setPrevF, decSizeF, incSizeF, clearColorF, setColorF, isBodyN, isHeaderN, isBoundaryN, topF, colorF, sizeF, prevF, nextF, firstForPrevF, lastForNextF]

@[simp] lemma isBodyN_setColorF (c : Nat) (n : DNode N) :
    (n.setColorF c).isBodyN = n.isBodyN := by
  cases n with
  | boundary => rfl
  | normal i t => cases t <;> simp [setNextF, setPrevF, decSizeF, incSizeF, clearColorF, setColorF, isBodyN, isHeaderN, isBoundaryN, topF, colorF, sizeF, prevF, nextF, firstForPrevF, lastForNextF]

@[simp] lemma isHeaderN_setNextF (v : Nat) (n : DNode N) :
    (n.setNextF v).isHeaderN = n.isHeaderN := by
  cases n with
  | boundary => rfl
  | normal i t => cases t <;> simp [setNextF, setPrevF, decSizeF, incSizeF, clearColorF, setColorF, isBodyN, isHeaderN, isBoundaryN, topF, colorF, sizeF, prevF, nextF, firstForPrevF, lastForNextF]

@[simp] lemma isHeaderN_setPrevF (v : Nat) (n : DNode N) :
    (n.setPrevF v).isHeaderN = n.isHeaderN := by
  cases n with
  | boundary => rfl
  | normal i t => cases t <;> simp [setNextF, setPrevF, decSizeF, incSizeF, clearColorF, setColorF, isBodyN, isHeaderN, isBoundaryN, topF, colorF, sizeF, prevF, nextF, firstForPrevF, lastForNextF]

@[simp] lemma isHeaderN_decSizeF (n : DNode N) : n.decSizeF.isHeaderN = n.isHeaderN := by
  cases n with
  | boundary => rfl
  | normal i t => cases t <;> simp [setNextF, setPrevF, decSizeF, incSizeF, clearColorF, setColorF, isBodyN, isHeaderN, isBoundaryN, topF, colorF, sizeF, prevF, nextF, firstForPrevF, lastForNextF]

@[simp] lemma isHeaderN_incSizeF (n : DNode N) : n.incSizeF.isHeaderN = n.isHeaderN := by
  cases n with
  | boundary => rfl
  | normal i t => cases t <;> simp [setNextF, setPrevF, decSizeF, incSizeF, clearColorF, setColorF, isBodyN, isHeaderN, isBoundaryN, topF, colorF, sizeF, prevF, nextF, firstForPrevF, lastForNextF]

@[simp] lemma isHeaderN_clearColorF (n : DNode N) :
    n.clearColorF.isHeaderN = n.isHeaderN := by
  cases n with
  | boundary => rfl
  | normal i t => cases t <;> simp [setNextF, setPrevF, decSizeF, incSizeF, clearColorF, setColorF, isBodyN, isHeaderN, isBoundaryN, topF, colorF, sizeF, prevF, nextF, firstForPrevF, lastForNextF]

@[simp] lemma isHeaderN_setColorF (c : Nat) (n : DNode N) :
    (n.setColorF c).isHeaderN = n.isHeaderN := by
  cases n with
  | boundary => rfl
  | normal i t => cases t <;> simp [setNextF, setPrevF, decSizeF, incSizeF, clearColorF, setColorF, isBodyN, isHeaderN, isBoundaryN, topF, colorF, sizeF, prevF, nextF, firstForPrevF, lastForNextF]

@[simp] lemma isBoundaryN_setNextF (v : Nat) (n : DNode N) :
    (n.setNextF v).isBoundaryN = n.isBoundaryN := by
  cases n with
  | boundary => rfl
  | normal i t => cases t <;> simp [setNextF, setPrevF, decSizeF, incSizeF, clearColorF, setColorF, isBodyN, isHeaderN, isBoundaryN, topF, colorF, sizeF, prevF, nextF, firstForPrevF, lastForNextF]

@[simp] lemma isBoundaryN_setPrevF (v : Nat) (n : DNode N) :
    (n.setPrevF v).isBoundaryN = n.isBoundaryN := by
  cases n with
  | boundary => rfl
  | normal i t => cases t <;> simp [setNextF, setPrevF, decSizeF, incSizeF, clearColorF, setColorF, isBodyN, isHeaderN, isBoundaryN, topF, colorF, sizeF, prevF, nextF, firstForPrevF, lastForNextF]

@[simp] lemma isBoundaryN_decSizeF (n : DNode N) :
    n.decSizeF.isBoundaryN = n.isBoundaryN := by
  cases n with
  | boundary => rfl
  | normal i t => cases t <;> simp [setNextF, setPrevF, decSizeF, incSizeF, clearColorF, setColorF, isBodyN, isHeaderN, isBoundaryN, topF, colorF, sizeF, prevF, nextF, firstForPrevF, lastForNextF]

@[simp] lemma isBoundaryN_incSizeF (n : DNode N) :
    n.incSizeF.isBoundaryN = n.isBoundaryN := by
  cases n with
  | boundary => rfl
  | normal i t => cases t <;> simp [setNextF, setPrevF, decSizeF, incSizeF, clearColorF, setColorF, isBodyN, isHeaderN, isBoundaryN, topF, colorF, sizeF, prevF, nextF, firstForPrevF, lastForNextF]

@[simp] lemma isBoundaryN_clearColorF (n : DNode N) :
    n.clearColorF.isBoundaryN = n.isBoundaryN := by
  cases n with
  | boundary => rfl
  | normal i t => cases t <;> simp [setNextF, setPrevF, decSizeF, incSizeF, clearColorF, setColorF, isBodyN, isHeaderN, isBoundaryN, topF, colorF, sizeF, prevF, nextF, firstForPrevF, lastForNextF]

@[simp] lemma isBoundaryN_setColorF (c : Nat) (n : DNode N) :
    (n.setColorF c).isBoundaryN = n.isBoundaryN := by
  cases n with
  | boundary => rfl
  | normal i t => cases t <;> simp [setNextF, setPrevF, decSizeF, incSizeF, clearColorF, setColorF, isBodyN, isHeaderN, isBoundaryN, topF, colorF, sizeF, prevF, nextF, firstForPrevF, lastForNextF]

@[simp] lemma topF_setNextF (v : Nat) (n : DNode N) : (n.setNextF v).topF = n.topF := by
  cases n with
  | boundary => rfl
  | normal i t => cases t <;> simp [setNextF, setPrevF, decSizeF, incSizeF, clearColorF, setColorF, isBodyN, isHeaderN, isBoundaryN, topF, colorF, sizeF, prevF, nextF, firstForPrevF, lastForNextF]

@[simp] lemma topF_setPrevF (v : Nat) (n : DNode N) : (n.setPrevF v).topF = n.topF := by
  cases n with
  | boundary => rfl
  | normal i t => cases t <;> simp [setNextF, setPrevF, decSizeF, incSizeF, clearColorF, setColorF, isBodyN, isHeaderN, isBoundaryN, topF, colorF, sizeF, prevF, nextF, firstForPrevF, lastForNextF]

@[simp] lemma topF_decSizeF (n : DNode N) : n.decSizeF.topF = n.topF := by
  cases n with
  | boundary => rfl
  | normal i t => cases t <;> simp [setNextF, setPrevF, decSizeF, incSizeF, clearColorF, setColorF, isBodyN, isHeaderN, isBoundaryN, topF, colorF, sizeF, prevF, nextF, firstForPrevF, lastForNextF]

@[simp] lemma topF_incSizeF (n : DNode N) : n.incSizeF.topF = n.topF := by
  cases n with
  | boundary => rfl
  | normal i t => cases t <;> simp [setNextF, setPrevF, decSizeF, incSizeF, clearColorF, setColorF, isBodyN, isHeaderN, isBoundaryN, topF, colorF, sizeF, prevF, nextF, firstForPrevF, lastForNextF]

@[simp] lemma topF_clearColorF (n : DNode N) : n.clearColorF.topF = n.topF := by
  cases n with
  | boundary => rfl
  | normal i t => cases t <;> simp [setNextF, setPrevF, decSizeF, incSizeF, clearColorF, setColorF, isBodyN, isHeaderN, isBoundaryN, topF, colorF, sizeF, prevF, nextF, firstForPrevF, lastForNextF]

@[simp] lemma topF_setColorF (c : Nat) (n : DNode N) : (n.setColorF c).topF = n.topF := by
  cases n with
  | boundary => rfl
  | normal i t => cases t <;> simp [setNextF, setPrevF, decSizeF, incSizeF, clearColorF, setColorF, isBodyN, isHeaderN, isBoundaryN, topF, colorF, sizeF, prevF, nextF, firstForPrevF, lastForNextF]

@[simp] lemma colorF_setNextF (v : Nat) (n : DNode N) :
    (n.setNextF v).colorF = n.colorF := by
  cases n with
  | boundary => rfl
  | normal i t => cases t <;> simp [setNextF, setPrevF, decSizeF, incSizeF, clearColorF, setColorF, isBodyN, isHeaderN, isBoundaryN, topF, colorF, sizeF, prevF, nextF, firstForPrevF, lastForNextF]

@[simp] lemma colorF_setPrevF (v : Nat) (n : DNode N) :
    (n.setPrevF v).colorF = n.colorF := by
  cases n with
  | boundary => rfl
  | normal i t => cases t <;> simp [setNextF, setPrevF, decSizeF, incSizeF, clearColorF, setColorF, isBodyN, isHeaderN, isBoundaryN, topF, colorF, sizeF, prevF, nextF, firstForPrevF, lastForNextF]

@[simp] lemma colorF_decSizeF (n : DNode N) : n.decSizeF.colorF = n.colorF := by
  cases n with
  | boundary => rfl
  | normal i t => cases t <;> simp [setNextF, setPrevF, decSizeF, incSizeF, clearColorF, setColorF, isBodyN, isHeaderN, isBoundaryN, topF, colorF, sizeF, prevF, nextF, firstForPrevF, lastForNextF]

@[simp] lemma colorF_incSizeF (n : DNode N) : n.incSizeF.colorF = n.colorF := by
  cases n with
  | boundary => rfl
  | normal i t => cases t <;> simp [setNextF, setPrevF, decSizeF, incSizeF, clearColorF, setColorF, isBodyN, isHeaderN, isBoundaryN, topF, colorF, sizeF, prevF, nextF, firstForPrevF, lastForNextF]

@[simp] lemma sizeF_setNextF (v : Nat) (n : DNode N) :
    (n.setNextF v).sizeF = n.sizeF := by
  cases n with
  | boundary => rfl
  | normal i t => cases t <;> simp [setNextF, setPrevF, decSizeF, incSizeF, clearColorF, setColorF, isBodyN, isHeaderN, isBoundaryN, topF, colorF, sizeF, prevF, nextF, firstForPrevF, lastForNextF]

@[simp] lemma sizeF_setPrevF (v : Nat) (n : DNode N) :
    (n.setPrevF v).sizeF = n.sizeF := by
  cases n with
  | boundary => rfl
  | normal i t => cases t <;> simp [setNextF, setPrevF, decSizeF, incSizeF, clearColorF, setColorF, isBodyN, isHeaderN, isBoundaryN, topF, colorF, sizeF, prevF, nextF, firstForPrevF, lastForNextF]

@[simp] lemma sizeF_clearColorF (n : DNode N) : n.clearColorF.sizeF = n.sizeF := by
  cases n with
  | boundary => rfl
  | normal i t => cases t <;> simp [setNextF, setPrevF, decSizeF, incSizeF, clearColorF, setColorF, isBodyN, isHeaderN, isBoundaryN, topF, colorF, sizeF, prevF, nextF, firstForPrevF, lastForNextF]

@[simp] lemma sizeF_setColorF (c : Nat) (n : DNode N) :
    (n.setColorF c).sizeF = n.sizeF := by
  cases n with
  | boundary => rfl
  | normal i t => cases t <;> simp [setNextF, setPrevF, decSizeF, incSizeF, clearColorF, setColorF, isBodyN, isHeaderN, isBoundaryN, topF, colorF, sizeF, prevF, nextF, firstForPrevF, lastForNextF]

@[simp] lemma prevF_setNextF (v : Nat) (n : DNode N) :
    (n.setNextF v).prevF = n.prevF := by
  cases n with
  | boundary => rfl
  | normal i t => cases t <;> simp [setNextF, setPrevF, decSizeF, incSizeF, clearColorF, setColorF, isBodyN, isHeaderN, isBoundaryN, topF, colorF, sizeF, prevF, nextF, firstForPrevF, lastForNextF]

@[simp] lemma nextF_setPrevF (v : Nat) (n : DNode N) :
    (n.setPrevF v).nextF = n.nextF := by
  cases n with
  | boundary => rfl
  | normal i t => cases t <;> simp [setNextF, setPrevF, decSizeF, incSizeF, clearColorF, setColorF, isBodyN, isHeaderN, isBoundaryN, topF, colorF, sizeF, prevF, nextF, firstForPrevF, lastForNextF]

@[simp] lemma prevF_decSizeF (n : DNode N) : n.decSizeF.prevF = n.prevF := by
  cases n with
  | boundary => rfl
  | normal i t => cases t <;> simp [setNextF, setPrevF, decSizeF, incSizeF, clearColorF, setColorF, isBodyN, isHeaderN, isBoundaryN, topF, colorF, sizeF, prevF, nextF, firstForPrevF, lastForNextF]

@[simp] lemma prevF_incSizeF (n : DNode N) : n.incSizeF.prevF = n.prevF := by
  cases n with
  | boundary => rfl
  | normal i t => cases t <;> simp [setNextF, setPrevF, decSizeF, incSizeF, clearColorF, setColorF, isBodyN, isHeaderN, isBoundaryN, topF, colorF, sizeF, prevF, nextF, firstForPrevF, lastForNextF]

@[simp] lemma nextF_decSizeF (n : DNode N) : n.decSizeF.nextF = n.nextF := by
  cases n with
  | boundary => rfl
  | normal i t => cases t <;> simp [setNextF, setPrevF, decSizeF, incSizeF, clearColorF, setColorF, isBodyN, isHeaderN, isBoundaryN, topF, colorF, sizeF, prevF, nextF, firstForPrevF, lastForNextF]

@[simp] lemma nextF_incSizeF (n : DNode N) : n.incSizeF.nextF = n.nextF := by
  cases n with
  | boundary => rfl
  | normal i t => cases t <;> simp [setNextF, setPrevF, decSizeF, incSizeF, clearColorF, setColorF, isBodyN, isHeaderN, isBoundaryN, topF, colorF, sizeF, prevF, nextF, firstForPrevF, lastForNextF]

@[simp] lemma prevF_clearColorF (n : DNode N) : n.clearColorF.prevF = n.prevF := by
  cases n with
  | boundary => rfl
  | normal i t => cases t <;> simp [setNextF, setPrevF, decSizeF, incSizeF, clearColorF, setColorF, isBodyN, isHeaderN, isBoundaryN, topF, colorF, sizeF, prevF, nextF, firstForPrevF, lastForNextF]

@[simp] lemma nextF_clearColorF (n : DNode N) : n.clearColorF.nextF = n.nextF := by
  cases n with
  | boundary => rfl
  | normal i t => cases t <;> simp [setNextF, setPrevF, decSizeF, incSizeF, clearColorF, setColorF, isBodyN, isHeaderN, isBoundaryN, topF, colorF, sizeF, prevF, nextF, firstForPrevF, lastForNextF]

@[simp] lemma prevF_setColorF (c : Nat) (n : DNode N) :
    (n.setColorF c).prevF = n.prevF := by
  cases n with
  | boundary => rfl
  | normal i t => cases t <;> simp [setNextF, setPrevF, decSizeF, incSizeF, clearColorF, setColorF, isBodyN, isHeaderN, isBoundaryN, topF, colorF, sizeF, prevF, nextF, firstForPrevF, lastForNextF]

@[simp] lemma nextF_setColorF (c : Nat) (n : DNode N) :
    (n.setColorF c).nextF = n.nextF := by
  cases n with
  | boundary => rfl
  | normal i t => cases t <;> simp [setNextF, setPrevF, decSizeF, incSizeF, clearColorF, setColorF, isBodyN, isHeaderN, isBoundaryN, topF, colorF, sizeF, prevF, nextF, firstForPrevF, lastForNextF]

@[simp] lemma firstForPrevF_setNextF (v : Nat) (n : DNode N) :
    (n.setNextF v).firstForPrevF = n.firstForPrevF := by
  cases n with
  | boundary => rfl
  | normal i t => cases t <;> simp [setNextF, setPrevF, decSizeF, incSizeF, clearColorF, setColorF, isBodyN, isHeaderN, isBoundaryN, topF, colorF, sizeF, prevF, nextF, firstForPrevF, lastForNextF]

@[simp] lemma firstForPrevF_setPrevF (v : Nat) (n : DNode N) :
    (n.setPrevF v).firstForPrevF = n.firstForPrevF := by
  cases n with
  | boundary => rfl
  | normal i t => cases t <;> simp [setNextF, setPrevF, decSizeF, incSizeF, clearColorF, setColorF, isBodyN, isHeaderN, isBoundaryN, topF, colorF, sizeF, prevF, nextF, firstForPrevF, lastForNextF]

@[simp] lemma firstForPrevF_decSizeF (n : DNode N) :
    n.decSizeF.firstForPrevF = n.firstForPrevF := by
  cases n with
  | boundary => rfl
  | normal i t => cases t <;> simp [setNextF, setPrevF, decSizeF, incSizeF, clearColorF, setColorF, isBodyN, isHeaderN, isBoundaryN, topF, colorF, sizeF, prevF, nextF, firstForPrevF, lastForNextF]

@[simp] lemma firstForPrevF_incSizeF (n : DNode N) :
    n.incSizeF.firstForPrevF = n.firstForPrevF := by
  cases n with
  | boundary => rfl
  | normal i t => cases t <;> simp [setNextF, setPrevF, decSizeF, incSizeF, clearColorF, setColorF, isBodyN, isHeaderN, isBoundaryN, topF, colorF, sizeF, prevF, nextF, firstForPrevF, lastForNextF]

@[simp] lemma lastForNextF_setNextF (v : Nat) (n : DNode N) :
    (n.setNextF v).lastForNextF = n.lastForNextF := by
  cases n with
  | boundary => rfl
  | normal i t => cases t <;> simp [setNextF, setPrevF, decSizeF, incSizeF, clearColorF, setColorF, isBodyN, isHeaderN, isBoundaryN, topF, colorF, sizeF, prevF, nextF, firstForPrevF, lastForNextF]

@[simp] lemma lastForNextF_setPrevF (v : Nat) (n : DNode N) :
    (n.setPrevF v).lastForNextF = n.lastForNextF := by
  cases n with
  | boundary => rfl
  | normal i t => cases t <;> simp [setNextF, setPrevF, decSizeF, incSizeF, clearColorF, setColorF, isBodyN, isHeaderN, isBoundaryN, topF, colorF, sizeF, prevF, nextF, firstForPrevF, lastForNextF]

@[simp] lemma lastForNextF_decSizeF (n : DNode N) :
    n.decSizeF.lastForNextF = n.lastForNextF := by
  cases n with
  | boundary => rfl
  | normal i t => cases t <;> simp [setNextF, setPrevF, decSizeF, incSizeF, clearColorF, setColorF, isBodyN, isHeaderN, isBoundaryN, topF, colorF, sizeF, prevF, nextF, firstForPrevF, lastForNextF]

@[simp] lemma lastForNextF_incSizeF (n : DNode N) :
    n.incSizeF.lastForNextF = n.lastForNextF := by
  cases n with
  | boundary => rfl
  | normal i t => cases t <;> simp [setNextF, setPrevF, decSizeF, incSizeF, clearColorF, setColorF, isBodyN, isHeaderN, isBoundaryN, topF, colorF, sizeF, prevF, nextF, firstForPrevF, lastForNextF]

lemma nextF_setNextF (v : Nat) (n : DNode N) (h : n.isBoundaryN = false) :
    (n.setNextF v).nextF = v := by
  cases n with
  | boundary => simp [isBoundaryN] at h
  | normal i t => rfl

lemma prevF_setPrevF (v : Nat) (n : DNode N) (h : n.isBoundaryN = false) :
    (n.setPrevF v).prevF = v := by
  cases n with
  | boundary => simp [isBoundaryN] at h
  | normal i t => rfl

@[simp] lemma setNextF_setNextF (v w : Nat) (n : DNode N) :
    (n.setNextF w).setNextF v = n.setNextF v := by
  cases n with
  | boundary => rfl
  | normal i t => rfl

@[simp] lemma setPrevF_setPrevF (v w : Nat) (n : DNode N) :
    (n.setPrevF w).setPrevF v = n.setPrevF v := by
  cases n with
  | boundary => rfl
  | normal i t => rfl

lemma setNextF_self (n : DNode N) : n.setNextF n.nextF = n := by
  cases n with
  | boundary => rfl
  | normal i t => rfl

lemma setPrevF_self (n : DNode N) : n.setPrevF n.prevF = n := by
  cases n with
  | boundary => rfl
  | normal i t => rfl

lemma setPrevF_setNextF (v w : Nat) (n : DNode N) :
    (n.setNextF w).setPrevF v = (n.setPrevF v).setNextF w := by
  cases n with
  | boundary => rfl
  | normal i t => rfl

lemma decSizeF_setNextF (v : Nat) (n : DNode N) :
    (n.setNextF v).decSizeF = n.decSizeF.setNextF v := by
  cases n with
  | boundary => rfl
  | normal i t => cases t <;> simp [setNextF, setPrevF, decSizeF, incSizeF, clearColorF, setColorF, isBodyN, isHeaderN, isBoundaryN, topF, colorF, sizeF, prevF, nextF, firstForPrevF, lastForNextF]

lemma decSizeF_setPrevF (v : Nat) (n : DNode N) :
    (n.setPrevF v).decSizeF = n.decSizeF.setPrevF v := by
  cases n with
  | boundary => rfl
  | normal i t => cases t <;> simp [setNextF, setPrevF, decSizeF, incSizeF, clearColorF, setColorF, isBodyN, isHeaderN, isBoundaryN, topF, colorF, sizeF, prevF, nextF, firstForPrevF, lastForNextF]

lemma incSizeF_setNextF (v : Nat) (n : DNode N) :
    (n.setNextF v).incSizeF = n.incSizeF.setNextF v := by
  cases n with
  | boundary => rfl
  | normal i t => cases t <;> simp [setNextF, setPrevF, decSizeF, incSizeF, clearColorF, setColorF, isBodyN, isHeaderN, isBoundaryN, topF, colorF, sizeF, prevF, nextF, firstForPrevF, lastForNextF]

lemma incSizeF_setPrevF (v : Nat) (n : DNode N) :
    (n.setPrevF v).incSizeF = n.incSizeF.setPrevF v := by
  cases n with
  | boundary => rfl
  | normal i t => cases t <;> simp [setNextF, setPrevF, decSizeF, incSizeF, clearColorF, setColorF, isBodyN, isHeaderN, isBoundaryN, topF, colorF, sizeF, prevF, nextF, firstForPrevF, lastForNextF]

lemma incSizeF_decSizeF (n : DNode N) (h : n.sizeF < W64) :
    n.decSizeF.incSizeF = n := by
  cases n with
  | boundary => rfl
  | normal i t =>
    cases t with
    | body => rfl
    | header sz =>
      simp only [sizeF] at h
      simp only [decSizeF, incSizeF, normal.injEq, NodeType.header.injEq, true_and]
      unfold W64 at h ⊢
      omega

lemma boundary_eq_of_isBoundaryN (n : DNode N) (h : n.isBoundaryN = true) :
    n.setNextF 0 = n ∧ n.setPrevF 0 = n := by
  cases n with
  | boundary => exact ⟨rfl, rfl⟩
  | normal i t => simp [isBoundaryN] at h

end DNode

/-!  State-level algebra: reading the arena through the setters. -/

namespace Dlx

variable {I N : Type}

@[simp] lemma length_bset (s : Dlx I N) (i : Nat) (f : DNode N → DNode N) :
    (s.bset i f).body.length = s.body.length := by
  simp [bset]

@[simp] lemma headers_bset (s : Dlx I N) (i : Nat) (f : DNode N → DNode N) :
    (s.bset i f).headers = s.headers := rfl

@[simp] lemma numPrimaryItems_bset (s : Dlx I N) (i : Nat) (f : DNode N → DNode N) :
    (s.bset i f).numPrimaryItems = s.numPrimaryItems := rfl

lemma bget_bset (s : Dlx I N) (i : Nat) (f : DNode N → DNode N) (j : Nat) :
    (s.bset i f).bget j =
      if i = j ∧ j < s.body.length then f (s.bget j) else s.bget j := by
  unfold bget bset
  simp only [List.getD_eq_getElem?_getD]
  by_cases hij : i = j
  · subst hij
    by_cases hlen : i < s.body.length
    · simp only [List.getElem?_set_self hlen, hlen, and_true, if_true, Option.getD_some,
        List.getElem?_eq_getElem hlen]
      congr 1
      unfold bget
      simp [List.getD_eq_getElem?_getD, List.getElem?_eq_getElem hlen]
    · simp only [hlen, and_false, if_false]
      rw [List.set_eq_of_length_le (by omega)]
  · simp [List.getElem?_set_ne hij, hij]

lemma dlxExt (s t : Dlx I N) (h0 : s.numPrimaryItems = t.numPrimaryItems)
    (h1 : s.headers = t.headers) (h2 : s.body.length = t.body.length)
    (h3 : ∀ j < s.body.length, s.bget j = t.bget j) : s = t := by
  obtain ⟨np1, hd1, bd1⟩ := s
  obtain ⟨np2, hd2, bd2⟩ := t
  simp only at h0 h1 h2
  subst h0 h1
  simp only [mk.injEq, true_and]
  refine List.ext_getElem h2 ?_
  intro j hj1 hj2
  have := h3 j hj1
  unfold bget at this
  simpa only [List.getD_eq_getElem?_getD, List.getElem?_eq_getElem hj1,
    List.getElem?_eq_getElem hj2, Option.getD_some] using this

/-- Pointwise description of `unlinkStep`: splice writes at `prv q`,
`nxt q` and the size decrement at `topAt q`. -/
lemma bget_unlinkStep (s : Dlx I N) (q j : Nat) :
    (s.unlinkStep q).bget j =
      (let n1 := if s.prv q = j ∧ j < s.body.length
        then (s.bget j).setNextF (s.nxt q) else s.bget j
       let n2 := if s.nxt q = j ∧ j < s.body.length
        then n1.setPrevF (s.prv q) else n1
       if s.topAt q = j ∧ j < s.body.length then n2.decSizeF else n2) := by
  show (((s.setNextAt (s.prv q) (s.nxt q)).setPrevAt (s.nxt q) (s.prv q)).decSizeAt
      (s.topAt q)).bget j = _
  simp only [decSizeAt, setPrevAt, setNextAt, bget_bset, length_bset]

/-- Pointwise description of `relinkStep`. -/
lemma bget_relinkStep (s : Dlx I N) (q j : Nat) :
    (s.relinkStep q).bget j =
      (let n1 := if s.prv q = j ∧ j < s.body.length
        then (s.bget j).setNextF q else s.bget j
       let n2 := if s.nxt q = j ∧ j < s.body.length
        then n1.setPrevF q else n1
       if s.topAt q = j ∧ j < s.body.length then n2.incSizeF else n2) := by
  show (((s.setNextAt (s.prv q) q).setPrevAt (s.nxt q) q).incSizeAt (s.topAt q)).bget j = _
  simp only [incSizeAt, setPrevAt, setNextAt, bget_bset, length_bset]

@[simp] lemma length_unlinkStep (s : Dlx I N) (q : Nat) :
    (s.unlinkStep q).body.length = s.body.length := by
  show (((s.setNextAt (s.prv q) (s.nxt q)).setPrevAt (s.nxt q) (s.prv q)).decSizeAt
      (s.topAt q)).body.length = _
  simp [decSizeAt, setPrevAt, setNextAt]

@[simp] lemma length_relinkStep (s : Dlx I N) (q : Nat) :
    (s.relinkStep q).body.length = s.body.length := by
  show (((s.setNextAt (s.prv q) q).setPrevAt (s.nxt q) q).incSizeAt
      (s.topAt q)).body.length = _
  simp [incSizeAt, setPrevAt, setNextAt]

@[simp] lemma headers_unlinkStep (s : Dlx I N) (q : Nat) :
    (s.unlinkStep q).headers = s.headers := rfl

@[simp] lemma headers_relinkStep (s : Dlx I N) (q : Nat) :
    (s.relinkStep q).headers = s.headers := rfl

@[simp] lemma numPrimaryItems_unlinkStep (s : Dlx I N) (q : Nat) :
    (s.unlinkStep q).numPrimaryItems = s.numPrimaryItems := rfl

@[simp] lemma numPrimaryItems_relinkStep (s : Dlx I N) (q : Nat) :
    (s.relinkStep q).numPrimaryItems = s.numPrimaryItems := rfl

end Dlx

/-!  Membership characterisations for the Sudoku item universe. -/

lemma mem_sudokuCollected_cell (r c : Nat) :
    SudokuItem.cell r c ∈ sudokuCollectedItems ↔ r < 9 ∧ c < 9 := by
  simp only [sudokuCollectedItems, List.mem_flatMap, List.mem_range, List.mem_cons,
    List.mem_singleton, List.not_mem_nil, or_false]
  constructor
  · rintro ⟨i, hi, h⟩
    rcases h with h | h | h | h <;> simp_all <;> omega
  · rintro ⟨hr, hc⟩
    exact ⟨c * 9 + r, by omega, by left; congr 1 <;> omega⟩

lemma mem_sudokuCollected_row (c d : Nat) :
    SudokuItem.row c d ∈ sudokuCollectedItems ↔ c < 9 ∧ 1 ≤ d ∧ d ≤ 9 := by
  simp only [sudokuCollectedItems, List.mem_flatMap, List.mem_range, List.mem_cons,
    List.mem_singleton, List.not_mem_nil, or_false]
  constructor
  · rintro ⟨i, hi, h⟩
    rcases h with h | h | h | h <;> simp_all <;> omega
  · rintro ⟨hc, hd1, hd9⟩
    refine ⟨c * 9 + (d - 1), by omega, ?_⟩
    right; left; congr 1 <;> omega

lemma mem_sudokuCollected_col (r d : Nat) :
    SudokuItem.col r d ∈ sudokuCollectedItems ↔ r < 9 ∧ 1 ≤ d ∧ d ≤ 9 := by
  simp only [sudokuCollectedItems, List.mem_flatMap, List.mem_range, List.mem_cons,
    List.mem_singleton, List.not_mem_nil, or_false]
  constructor
  · rintro ⟨i, hi, h⟩
    rcases h with h | h | h | h <;> simp_all <;> omega
  · rintro ⟨hr, hd1, hd9⟩
    refine ⟨(d - 1) * 9 + r, by omega, ?_⟩
    right; right; left; congr 1 <;> omega

lemma mem_sudokuCollected_box (b d : Nat) :
    SudokuItem.box b d ∈ sudokuCollectedItems ↔ b < 9 ∧ 1 ≤ d ∧ d ≤ 9 := by
  simp only [sudokuCollectedItems, List.mem_flatMap, List.mem_range, List.mem_cons,
    List.mem_singleton, List.not_mem_nil, or_false]
  constructor
  · rintro ⟨i, hi, h⟩
    rcases h with h | h | h | h <;> simp_all <;> omega
  · rintro ⟨hb, hd1, hd9⟩
    refine ⟨(d - 1) * 9 + b, by omega, ?_⟩
    right; right; right; congr 1 <;> omega

lemma mem_sudokuStandard_iff (x : SudokuItem) :
    x ∈ sudokuStandardItems ↔
      (∃ r c, x = .cell r c ∧ r < 9 ∧ c < 9) ∨
      (∃ c d, x = .row c d ∧ c < 9 ∧ 1 ≤ d ∧ d ≤ 9) ∨
      (∃ r d, x = .col r d ∧ r < 9 ∧ 1 ≤ d ∧ d ≤ 9) ∨
      (∃ b d, x = .box b d ∧ b < 9 ∧ 1 ≤ d ∧ d ≤ 9) := by
  simp only [sudokuStandardItems, List.mem_append, List.mem_flatMap, List.mem_map,
    List.mem_range]
  constructor
  · rintro (((⟨r, hr, c, hc, h⟩ | ⟨c, hc, d, hd, h⟩) | ⟨r, hr, d, hd, h⟩) | ⟨b, hb, d, hd, h⟩)
    · exact Or.inl ⟨r, c, h.symm, hr, hc⟩
    · exact Or.inr (Or.inl ⟨c, d + 1, h.symm, hc, by omega⟩)
    · exact Or.inr (Or.inr (Or.inl ⟨r, d + 1, h.symm, hr, by omega⟩))
    · exact Or.inr (Or.inr (Or.inr ⟨b, d + 1, h.symm, hb, by omega⟩))
  · rintro (⟨r, c, rfl, hr, hc⟩ | ⟨c, d, rfl, hc, hd1, hd9⟩ | ⟨r, d, rfl, hr, hd1, hd9⟩ |
      ⟨b, d, rfl, hb, hd1, hd9⟩)
    · exact Or.inl (Or.inl (Or.inl ⟨r, hr, c, hc, rfl⟩))
    · exact Or.inl (Or.inl (Or.inr ⟨c, hc, d - 1, by omega, by congr 1 <;> omega⟩))
    · exact Or.inl (Or.inr ⟨r, hr, d - 1, by omega, by congr 1 <;> omega⟩)
    · exact Or.inr ⟨b, hb, d - 1, by omega, by congr 1 <;> omega⟩

/-!  The claims settled on the definitions above. -/

deriving instance DecidableEq for Except

set_option maxRecDepth 2000

/-- C5 (code evaluated at the failing input): for the in-contract input
`(min, max) = (10, 10)`, `k = 1`, the enumerator emits the tuple
`[10]` — whose entry is not a digit of `1..9` — because the first
emission of `all_combinations_for_range` omits the `< 10` digit check
applied by every later emission.  The claimed contract requires no
emission at all here (no single digit sums to 10). -/
theorem c5_first_emission_digit_overflow :
    ∀ extra, allCombinationsForRange 10 10 1 (extra + 2) = [(10, [10])] :=
  fun _ => rfl

/-- C6: on the `test_simple_colors` instance (primary `p`, `q`, secondary
`a`, subsets `s0`–`s3`), the search returns the solution whose subset
names are exactly `{s0, s3}` — the only pair of subsets whose colors on
`a` agree.  The equation holds for every sufficient fuel, so it is the
result of the source's unfuelled loop. -/
theorem c6_find_solution_colors :
    ∀ extra, (dlxS4.findSolution (extra + 30)).1 = some [some "s0", some "s3"] :=
  fun _ => rfl

/-- C7 counterexample: after `find_solution` returns the `{s0, s3}`
solution on the `test_simple_colors` instance, the matrix is *not* back in
its pre-search state (dropping the returned iterator runs no code that
could restore it). -/
theorem c7_drop_does_not_restore : (dlxS4.findSolution 100).2 ≠ dlxS4 := by decide

/-- C7 amended: dropping the solution iterator performs no mutation, so
after a successful `find_solution` the matrix stays in its mid-search
state; the pre-search state is recovered only when the search itself
exhausts all options and returns `None`, as on this unsatisfiable
instance. -/
theorem c7_restore_on_exhausted_search :
    ∀ extra, dlxNoSol.findSolution (extra + 3) = (none, dlxNoSol) :=
  fun _ => rfl

/-- C8 counterexample: a kind-mismatched input (the primary item `p` used
in a `Secondary` constraint) is accepted when `debug_assert!`s are
compiled out, so the `KindMismatch` check *is* elided in release
builds. -/
theorem c8_kind_mismatch_elided_in_release :
    (constructE false [('p', HeaderType.primary)]
      [((0 : Nat), [Constraint.secondary ⟨'p', 1⟩])]).isOk = true := by decide

/-- C8 amended: construction fails with `DuplicateItem` on a repeated
item, `DuplicateSubset` on a repeated subset name and `UnknownItem` on an
unregistered item in every build configuration; `KindMismatch` is
signalled only when debug assertions are enabled; and a conforming input
constructs successfully. -/
theorem c8_construction_errors :
    (∀ dbg, constructE dbg [('p', HeaderType.primary), ('p', HeaderType.secondary)]
      ([] : List (Nat × List (Constraint Char))) = .error .duplicateItem) ∧
    (∀ dbg, constructE dbg [('p', HeaderType.primary)]
      [((0 : Nat), [Constraint.primary 'p']), (0, [Constraint.primary 'p'])] =
        .error .duplicateSubset) ∧
    (∀ dbg, constructE dbg [('p', HeaderType.primary)]
      [((0 : Nat), [Constraint.primary 'q'])] = .error .unknownItem) ∧
    constructE true [('p', HeaderType.primary)]
      [((0 : Nat), [Constraint.secondary ⟨'p', 1⟩])] = .error .kindMismatch ∧
    (∀ dbg, (constructE dbg s4items s4subsets).isOk = true) := by
  refine ⟨fun dbg => ?_, fun dbg => ?_, fun dbg => ?_, by decide, fun dbg => ?_⟩ <;>
    cases dbg <;> decide

/-- C9 counterexample: `Kakuro::from_file` does *not* tokenize lines at
whitespace — the whitespace-separated line `1 O` stays a single token and
the line fails to parse, whereas the comma-separated form parses. -/
theorem c9_not_whitespace_tokenized :
    splitParen ("1 O".toList) = ["1 O".toList] ∧
    parseGridLine ("1 O".toList) = none ∧
    parseGridLine ("1,O".toList) = some (1, [Tile.unknown .blank]) := by decide

/-- C9 amended: each line is split at top-level *commas* with
parenthesis-aware tokenization (commas inside parentheses do not end a
token); the first token is the dimension `n` and the following `n²`
tokens are the cells, as on this 2×2 line with a two-rule clue token. -/
theorem c9_comma_tokenization :
    splitParen ("2,O,X,(v12,h34),O".toList) =
      ["2".toList, "O".toList, "X".toList, "(v12,h34)".toList, "O".toList] ∧
    parseGridLine ("2,O,X,(v12,h34),O".toList) =
      some (2, [Tile.unknown .blank, Tile.empty,
        Tile.total ⟨some (.twoDigit '4' '3'), some (.twoDigit '2' '1')⟩,
        Tile.unknown .blank]) := by decide

/-- C10: the Sudoku item set collected over all 81 cells (before
pre-filled removal) equals, as a set, the standard 324 exact-cover items,
even though the `Box` entries are enumerated as
`Box { idx: row, digit: col + 1 }`; and every subset generated for an
empty cell — whose `Box` index is the block index
`(row / 3) * 3 + col / 3` — references only items of this set. -/
theorem c10_sudoku_item_universe :
    (∀ x, x ∈ sudokuCollectedItems ↔ x ∈ sudokuStandardItems) ∧
    (∀ row col digit, row < 9 → col < 9 → 1 ≤ digit → digit ≤ 9 →
      ∀ x ∈ sudokuChoice row col digit, x ∈ sudokuCollectedItems) := by
  constructor
  · intro x
    rw [mem_sudokuStandard_iff]
    cases x with
    | cell r c =>
      rw [mem_sudokuCollected_cell]
      constructor
      · intro ⟨h1, h2⟩
        exact Or.inl ⟨r, c, rfl, h1, h2⟩
      · rintro (⟨a, b, h, h1, h2⟩ | ⟨_, _, h, _⟩ | ⟨_, _, h, _⟩ | ⟨_, _, h, _⟩) <;> simp_all
    | row c d =>
      rw [mem_sudokuCollected_row]
      constructor
      · intro ⟨h1, h2, h3⟩
        exact Or.inr (Or.inl ⟨c, d, rfl, h1, h2, h3⟩)
      · rintro (⟨_, _, h, _⟩ | ⟨a, b, h, h1, h2⟩ | ⟨_, _, h, _⟩ | ⟨_, _, h, _⟩) <;> simp_all
    | col r d =>
      rw [mem_sudokuCollected_col]
      constructor
      · intro ⟨h1, h2, h3⟩
        exact Or.inr (Or.inr (Or.inl ⟨r, d, rfl, h1, h2, h3⟩))
      · rintro (⟨_, _, h, _⟩ | ⟨_, _, h, _⟩ | ⟨a, b, h, h1, h2⟩ | ⟨_, _, h, _⟩) <;> simp_all
    | box b d =>
      rw [mem_sudokuCollected_box]
      constructor
      · intro ⟨h1, h2, h3⟩
        exact Or.inr (Or.inr (Or.inr ⟨b, d, rfl, h1, h2, h3⟩))
      · rintro (⟨_, _, h, _⟩ | ⟨_, _, h, _⟩ | ⟨_, _, h, _⟩ | ⟨a, e, h, h1, h2⟩) <;> simp_all
  · intro row col digit h1 h2 h3 h4 x hx
    simp only [sudokuChoice, List.mem_cons, List.not_mem_nil, or_false] at hx
    rcases hx with rfl | rfl | rfl | rfl
    · exact (mem_sudokuCollected_cell _ _).2 ⟨h1, h2⟩
    · exact (mem_sudokuCollected_row _ _).2 ⟨h2, h3, h4⟩
    · exact (mem_sudokuCollected_col _ _).2 ⟨h1, h3, h4⟩
    · exact (mem_sudokuCollected_box _ _).2 ⟨by omega, h3, h4⟩

/-- C10 witness: the claim instantiated at the empty cell `(0, 0)` with
digit `1`. -/
theorem c10_sudoku_item_universe_witness :
    (0 : Nat) < 9 ∧ (1 : Nat) ≤ 1 ∧ (1 : Nat) ≤ 9 ∧
    SudokuItem.cell 0 0 ∈ sudokuCollectedItems :=
  ⟨by decide, by decide, by decide,
    c10_sudoku_item_universe.2 0 0 1 (by decide) (by decide) (by decide) (by decide)
      (SudokuItem.cell 0 0) (by decide)⟩

end P424
